import Mathlib

/-!
Shallow embedding of the fatigue core of the repository (src/lib/fatigue.ts).

Modelling conventions:
* JavaScript numbers are modelled as exact rationals (ℚ); all the arithmetic
  of the fatigue core (products, divisions by constants, min/max clamps) is
  modelled exactly.
* Timestamps are milliseconds-since-epoch, modelled as ℚ; `Date.now()` calls
  inside the methods are modelled by an explicit `now` parameter of each
  operation (the spec asks the clock source to be injectable).
* The `Map<string, MuscleFatigue>` is modelled as an insertion-ordered
  association list keyed by `muscleGroup`: `Map.get` is `find?` on the key,
  `Map.set` replaces in place an existing key (keeping its position) and
  appends a new key, exactly the ECMAScript `Map` iteration-order semantics.
* `Array.prototype.sort` with comparator `(a, b) => a.fatigueLevel - b.fatigueLevel`
  is modelled by a stable insertion sort on `fatigueLevel` (ECMAScript requires
  `sort` to be stable, and on a consistent comparator the result is unique).
* `Math.round` is `⌊x + 1/2⌋` (half-up, JavaScript semantics for the
  non-negative values that occur here).
-/

namespace Fatigue

/-- The `interface MuscleFatigue` of src/lib/fatigue.ts. -/
structure MuscleFatigue where
  muscleGroup : String
  fatigueLevel : ℚ
  lastExerciseTime : ℚ
  totalVolume : ℚ
  exerciseCount : ℕ
  recoveryRate : ℚ
  deriving DecidableEq, Repr

/-- The difficulty union type: beginner, intermediate or advanced. -/
inductive Difficulty where
  | beginner
  | intermediate
  | advanced
  deriving DecidableEq, Repr

/-- The `interface FatigueFactors` of src/lib/fatigue.ts. -/
structure FatigueFactors where
  exerciseIntensity : ℚ
  exerciseVolume : ℚ
  exerciseDuration : ℚ
  restTime : ℚ
  muscleGroup : String
  exerciseDifficulty : Difficulty
  deriving DecidableEq, Repr

/-- The `MUSCLE_FATIGUE_RATES` table (base fatigue per set, by muscle group). -/
def MUSCLE_FATIGUE_RATES : List (String × ℚ) :=
  [("Chest", 15), ("Back", 12), ("Shoulders", 18), ("Biceps", 20),
   ("Triceps", 18), ("Legs", 10), ("Core", 8), ("Calves", 25),
   ("Hamstrings", 12), ("Quadriceps", 10), ("Glutes", 8), ("Forearms", 30),
   ("Traps", 15), ("Lats", 12), ("Deltoids", 18), ("Pectorals", 15),
   ("Abdominals", 8), ("Obliques", 10), ("Lower Back", 12), ("Upper Back", 12)]

/-- The `MUSCLE_RECOVERY_RATES` table (recovery per minute, by muscle group). -/
def MUSCLE_RECOVERY_RATES : List (String × ℚ) :=
  [("Chest", 2.5), ("Back", 3.0), ("Shoulders", 2.0), ("Biceps", 1.5),
   ("Triceps", 2.0), ("Legs", 4.0), ("Core", 5.0), ("Calves", 1.0),
   ("Hamstrings", 3.0), ("Quadriceps", 4.0), ("Glutes", 4.5), ("Forearms", 0.5),
   ("Traps", 2.5), ("Lats", 3.0), ("Deltoids", 2.0), ("Pectorals", 2.5),
   ("Abdominals", 5.0), ("Obliques", 4.0), ("Lower Back", 3.0), ("Upper Back", 3.0)]

/-- Lookup `TABLE[key] || default`: record lookup with fallback (no table value is
falsy, so `||` is exactly a default for a missing key). -/
def lookupD (table : List (String × ℚ)) (key : String) (d : ℚ) : ℚ :=
  match table.find? (fun p => p.1 == key) with
  | some p => p.2
  | none => d

/-- The `DIFFICULTY_MULTIPLIERS` table. -/
def DIFFICULTY_MULTIPLIERS : Difficulty → ℚ
  | .beginner => 0.8
  | .intermediate => 1.0
  | .advanced => 1.3

/-- JavaScript `Math.min` on two arguments (kernel-computable form of `min` on ℚ). -/
def jsMin (a b : ℚ) : ℚ := if a ≤ b then a else b

/-- JavaScript `Math.max` on two arguments (kernel-computable form of `max` on ℚ). -/
def jsMax (a b : ℚ) : ℚ := if a ≤ b then b else a

/-- JavaScript `Math.round` on the rationals (JavaScript rounds half toward +∞). -/
def jsRound (q : ℚ) : ℤ := Rat.floor (q + 1 / 2)

/-- The `FatigueCalculator` instance state: the `muscleFatigue` map (as an
insertion-ordered association list) and `workoutStartTime`. -/
structure FatigueCalculator where
  muscleFatigue : List MuscleFatigue
  workoutStartTime : ℚ
  deriving DecidableEq, Repr

/-- Constructor `new FatigueCalculator()` at time `now`: empty map, stamps
`workoutStartTime = Date.now()`. -/
def FatigueCalculator.init (now : ℚ) : FatigueCalculator :=
  { muscleFatigue := [], workoutStartTime := now }

/-- Lookup `this.muscleFatigue.get(g)`. -/
def mapGet (m : List MuscleFatigue) (g : String) : Option MuscleFatigue :=
  m.find? (fun f => f.muscleGroup == g)

/-- Update `this.muscleFatigue.set(g, v)`: replace the entry with key `g` in place
if present (the ECMAScript `Map` keeps the original insertion position),
otherwise append. -/
def mapSet (m : List MuscleFatigue) (g : String) (v : MuscleFatigue) :
    List MuscleFatigue :=
  match m with
  | [] => [v]
  | e :: es => if e.muscleGroup == g then v :: es else e :: mapSet es g v

/-- Method `calculateFatigueIncrease(factors)` (src/lib/fatigue.ts lines 83-109). -/
def calculateFatigueIncrease (factors : FatigueFactors) : ℚ :=
  let baseRate := lookupD MUSCLE_FATIGUE_RATES factors.muscleGroup 10
  let difficultyMultiplier := DIFFICULTY_MULTIPLIERS factors.exerciseDifficulty
  let volumeFactor := jsMin (factors.exerciseVolume / 1000) 2.0
  let intensityFactor := factors.exerciseIntensity * 1.5
  let durationFactor := jsMin (factors.exerciseDuration / 60) 1.5
  let restFactor := jsMax (1.0 - factors.restTime / 300) 0.5
  let fatigueIncrease := baseRate * difficultyMultiplier * volumeFactor *
    intensityFactor * durationFactor * restFactor
  jsMin fatigueIncrease 50

/-- Method `updateFatigue(factors)` (src/lib/fatigue.ts lines 112-148), with
`Date.now()` passed in as `now`. -/
def updateFatigue (s : FatigueCalculator) (factors : FatigueFactors)
    (now : ℚ) : FatigueCalculator :=
  let muscleGroup := factors.muscleGroup
  let fatigue :=
    match mapGet s.muscleFatigue muscleGroup with
    | some f => f
    | none =>
      { muscleGroup := muscleGroup, fatigueLevel := 0,
        lastExerciseTime := now, totalVolume := 0, exerciseCount := 0,
        recoveryRate := lookupD MUSCLE_RECOVERY_RATES muscleGroup 2.0 }
  let timeSinceLastExercise := (now - fatigue.lastExerciseTime) / 1000 / 60
  let recovery := timeSinceLastExercise * fatigue.recoveryRate
  let afterRecovery := jsMax 0 (fatigue.fatigueLevel - recovery)
  let fatigueIncrease := calculateFatigueIncrease factors
  let fatigue' :=
    { fatigue with
      fatigueLevel := jsMin 100 (afterRecovery + fatigueIncrease),
      lastExerciseTime := now,
      totalVolume := fatigue.totalVolume + factors.exerciseVolume,
      exerciseCount := fatigue.exerciseCount + 1 }
  { s with muscleFatigue := mapSet s.muscleFatigue muscleGroup fatigue' }

/-- Method `getFatigueLevel(muscleGroup)` (src/lib/fatigue.ts lines 151-162). -/
def getFatigueLevel (s : FatigueCalculator) (muscleGroup : String)
    (now : ℚ) : ℚ :=
  match mapGet s.muscleFatigue muscleGroup with
  | none => 0
  | some fatigue =>
    let timeSinceLastExercise := (now - fatigue.lastExerciseTime) / 1000 / 60
    let recovery := timeSinceLastExercise * fatigue.recoveryRate
    jsMax 0 (fatigue.fatigueLevel - recovery)

/-- Method `getAllFatigueLevels()` (src/lib/fatigue.ts lines 165-178). -/
def getAllFatigueLevels (s : FatigueCalculator) (now : ℚ) :
    List MuscleFatigue :=
  s.muscleFatigue.map (fun fatigue =>
    let timeSinceLastExercise := (now - fatigue.lastExerciseTime) / 1000 / 60
    let recovery := timeSinceLastExercise * fatigue.recoveryRate
    { fatigue with fatigueLevel := jsMax 0 (fatigue.fatigueLevel - recovery) })

/-- The record returned by `getExerciseFatigue`. -/
structure ExerciseFatigueResult where
  primaryFatigue : ℚ
  secondaryFatigue : ℚ
  overallFatigue : ℚ
  deriving DecidableEq, Repr

/-- The exercise argument of `getExerciseFatigue`:
`{ muscleGroup: string; targetMuscles?: string[] }`. -/
structure ExerciseRef where
  muscleGroup : String
  targetMuscles : Option (List String)
  deriving DecidableEq, Repr

/-- Method `getExerciseFatigue(exercise)` (src/lib/fatigue.ts lines 181-212); the
`forEach` accumulation of `secondaryFatigue`/`secondaryCount` is a fold. -/
def getExerciseFatigue (s : FatigueCalculator) (exercise : ExerciseRef)
    (now : ℚ) : ExerciseFatigueResult :=
  let primaryFatigue := getFatigueLevel s exercise.muscleGroup now
  let sc : ℚ × ℕ :=
    match exercise.targetMuscles with
    | none => (0, 0)
    | some targetMuscles =>
      targetMuscles.foldl
        (fun acc muscle =>
          if muscle != exercise.muscleGroup then
            (acc.1 + getFatigueLevel s muscle now, acc.2 + 1)
          else acc)
        (0, 0)
  let avgSecondaryFatigue := if 0 < sc.2 then sc.1 / (sc.2 : ℚ) else 0
  let overallFatigue := primaryFatigue * 0.7 + avgSecondaryFatigue * 0.3
  { primaryFatigue := primaryFatigue,
    secondaryFatigue := avgSecondaryFatigue,
    overallFatigue := overallFatigue }

/-- The record returned by `getFatigueRecommendations`. -/
structure FatigueRecommendations where
  restNeeded : List String
  intensityAdjustment : String
  nextExerciseSuggestion : String
  deriving DecidableEq, Repr

/-- Stable insertion of `x` into a list sorted by `fatigueLevel`: `x` goes
before the first element whose level is ≥ `x`'s (so among equal levels the
earlier-inserted element stays first). -/
def insertByLevel (x : MuscleFatigue) : List MuscleFatigue → List MuscleFatigue
  | [] => [x]
  | y :: ys =>
    if x.fatigueLevel ≤ y.fatigueLevel then x :: y :: ys
    else y :: insertByLevel x ys

/-- JavaScript `array.sort((a, b) => a.fatigueLevel - b.fatigueLevel)`: stable sort by
ascending `fatigueLevel` (ECMAScript `Array.prototype.sort` is stable, and
with this consistent comparator its result is uniquely determined). -/
def sortByFatigue : List MuscleFatigue → List MuscleFatigue
  | [] => []
  | x :: xs => insertByLevel x (sortByFatigue xs)

/-- Method `getNextExerciseSuggestion(allFatigue)` (src/lib/fatigue.ts lines
246-259).  `sortedByFatigue[0]` is modelled by `headD` with a dummy record
(the index access only happens on a non-empty array). -/
def getNextExerciseSuggestion (allFatigue : List MuscleFatigue) : String :=
  let lowFatigueMuscles := allFatigue.filter (fun f => decide (f.fatigueLevel < 30))
  if lowFatigueMuscles.length = 0 then
    "Consider a different muscle group or take a longer rest"
  else
    let sortedByFatigue := sortByFatigue lowFatigueMuscles
    let first := sortedByFatigue.headD
      { muscleGroup := "", fatigueLevel := 0, lastExerciseTime := 0,
        totalVolume := 0, exerciseCount := 0, recoveryRate := 0 }
    "Consider targeting " ++ first.muscleGroup ++ " (" ++
      toString (jsRound first.fatigueLevel) ++ "% fatigue)"

/-- Method `getFatigueRecommendations()` (src/lib/fatigue.ts lines 215-244). -/
def getFatigueRecommendations (s : FatigueCalculator) (now : ℚ) :
    FatigueRecommendations :=
  let allFatigue := getAllFatigueLevels s now
  let highFatigue := allFatigue.filter (fun f => decide (70 < f.fatigueLevel))
  let moderateFatigue := allFatigue.filter
    (fun f => decide (40 < f.fatigueLevel) && decide (f.fatigueLevel ≤ 70))
  let restNeeded := highFatigue.map
    (fun f => f.muscleGroup ++ " (" ++ toString (jsRound f.fatigueLevel) ++ "% fatigue)")
  let intensityAdjustment :=
    if 0 < highFatigue.length then "reduce"
    else if 0 < moderateFatigue.length then "moderate"
    else "maintain"
  { restNeeded := restNeeded,
    intensityAdjustment := intensityAdjustment,
    nextExerciseSuggestion := getNextExerciseSuggestion allFatigue }

/-- A sequence of `updateFatigue` calls, each with its own clock reading. -/
def runSets (s : FatigueCalculator) (events : List (FatigueFactors × ℚ)) :
    FatigueCalculator :=
  events.foldl (fun st e => updateFatigue st e.1 e.2) s

/-- The domain constraints the spec places on a `SetInput`:
`intensity ∈ [0,1]`, `volume ≥ 0`, `durationSeconds ≥ 0`,
`restSecondsSincePrevious ≥ 0`. -/
def ValidFactors (f : FatigueFactors) : Prop :=
  0 ≤ f.exerciseIntensity ∧ f.exerciseIntensity ≤ 1 ∧
  0 ≤ f.exerciseVolume ∧ 0 ≤ f.exerciseDuration ∧ 0 ≤ f.restTime

instance (f : FatigueFactors) : Decidable (ValidFactors f) := by
  unfold ValidFactors; infer_instance

/-- The clock readings of an event sequence are non-decreasing and start no
earlier than `t` (wall-clock time is monotone). -/
def Chrono : ℚ → List (FatigueFactors × ℚ) → Prop
  | _, [] => True
  | t, e :: es => t ≤ e.2 ∧ Chrono e.2 es

instance Chrono.dec : (t : ℚ) → (es : List (FatigueFactors × ℚ)) →
    Decidable (Chrono t es)
  | _, [] => isTrue True.intro
  | t, e :: es =>
    have : Decidable (Chrono e.2 es) := Chrono.dec e.2 es
    inferInstanceAs (Decidable (t ≤ e.2 ∧ Chrono e.2 es))

/-- The clock reading after a sequence of events (its last entry's time, or
`t` for the empty sequence). -/
def lastTime (t : ℚ) (events : List (FatigueFactors × ℚ)) : ℚ :=
  events.foldl (fun _ e => e.2) t

/-- State invariant at time `t`: every stored entry has `fatigueLevel` in
[0, 100], was last touched no later than `t`, and has a non-negative
recovery rate. -/
def Inv (s : FatigueCalculator) (t : ℚ) : Prop :=
  ∀ f ∈ s.muscleFatigue,
    0 ≤ f.fatigueLevel ∧ f.fatigueLevel ≤ 100 ∧
    f.lastExerciseTime ≤ t ∧ 0 ≤ f.recoveryRate

/-- A `getFatigueLevel` call as a state transformer: the method body only
reads `this.muscleFatigue` (src/lib/fatigue.ts lines 151-162 contain no
assignment), so the instance state after the call is the instance state
before it. -/
def getFatigueLevelCall (s : FatigueCalculator) (muscleGroup : String)
    (now : ℚ) : ℚ × FatigueCalculator :=
  (getFatigueLevel s muscleGroup now, s)

/-- The stored (not decay-adjusted) `fatigueLevel` of a muscle group, 0 when
the group has no entry yet (the spec's implicit fatigue of an unrecorded
group). -/
def storedLevel (s : FatigueCalculator) (g : String) : ℚ :=
  match mapGet s.muscleFatigue g with
  | some f => f.fatigueLevel
  | none => 0

/-- The stored `totalVolume` of a muscle group, 0 when the group has no
entry yet. -/
def storedVolume (s : FatigueCalculator) (g : String) : ℚ :=
  match mapGet s.muscleFatigue g with
  | some f => f.totalVolume
  | none => 0

/-- Modelled from the spec: "among muscles with level < 30, pick the single
lowest-fatigue one …; tie-break for equal minimal levels: first encountered
in the iteration order wins".  `firstMin a l` scans `a :: l` and keeps the
earliest element whose `fatigueLevel` no later element strictly beats. -/
def firstMin (a : MuscleFatigue) : List MuscleFatigue → MuscleFatigue
  | [] => a
  | b :: bs => if a.fatigueLevel ≤ b.fatigueLevel then firstMin a bs else firstMin b bs

theorem jsMin_le_left (a b : ℚ) : jsMin a b ≤ a := by
  unfold jsMin; split <;> linarith

theorem jsMin_le_right (a b : ℚ) : jsMin a b ≤ b := by
  unfold jsMin; split <;> linarith

theorem le_jsMin {a b c : ℚ} (h1 : c ≤ a) (h2 : c ≤ b) : c ≤ jsMin a b := by
  unfold jsMin; split <;> assumption

theorem jsMax_le {a b c : ℚ} (h1 : a ≤ c) (h2 : b ≤ c) : jsMax a b ≤ c := by
  unfold jsMax; split <;> assumption

theorem le_jsMax_left (a b : ℚ) : a ≤ jsMax a b := by
  unfold jsMax; split <;> linarith

theorem le_jsMax_right (a b : ℚ) : b ≤ jsMax a b := by
  unfold jsMax; split <;> linarith

theorem jsMax_eq_of_le {a b : ℚ} (h : b ≤ a) : jsMax a b = a := by
  unfold jsMax; split <;> linarith

theorem jsMax_mono_right {a b c : ℚ} (h : b ≤ c) : jsMax a b ≤ jsMax a c := by
  unfold jsMax; split <;> split <;> linarith

theorem jsMax_nonneg (b : ℚ) : 0 ≤ jsMax 0 b := le_jsMax_left 0 b

theorem lookupD_pos {table : List (String × ℚ)} {key : String} {d : ℚ}
    (hd : 0 < d) (ht : ∀ p ∈ table, 0 < p.2) : 0 < lookupD table key d := by
  unfold lookupD
  cases hf : table.find? (fun p => p.1 == key) with
  | none => exact hd
  | some p => exact ht p (List.mem_of_find?_eq_some hf)

theorem MUSCLE_FATIGUE_RATES_pos : ∀ p ∈ MUSCLE_FATIGUE_RATES, 0 < p.2 := by
  intro p hp; fin_cases hp <;> norm_num

theorem MUSCLE_RECOVERY_RATES_pos : ∀ p ∈ MUSCLE_RECOVERY_RATES, 0 < p.2 := by
  intro p hp; fin_cases hp <;> norm_num

theorem baseRate_pos (g : String) : 0 < lookupD MUSCLE_FATIGUE_RATES g 10 :=
  lookupD_pos (by norm_num) MUSCLE_FATIGUE_RATES_pos

theorem recoveryRate_pos (g : String) : 0 < lookupD MUSCLE_RECOVERY_RATES g 2.0 :=
  lookupD_pos (by norm_num) MUSCLE_RECOVERY_RATES_pos

theorem DIFFICULTY_MULTIPLIERS_pos (d : Difficulty) : 0 < DIFFICULTY_MULTIPLIERS d := by
  cases d <;> norm_num [DIFFICULTY_MULTIPLIERS]

/-- The per-set increment is capped at 50, whatever the input. -/
theorem calculateFatigueIncrease_le_50 (factors : FatigueFactors) :
    calculateFatigueIncrease factors ≤ 50 := by
  unfold calculateFatigueIncrease
  exact jsMin_le_right _ _

/-- On inputs satisfying the spec's domain constraints, the per-set
increment is non-negative. -/
theorem calculateFatigueIncrease_nonneg {factors : FatigueFactors}
    (h : ValidFactors factors) : 0 ≤ calculateFatigueIncrease factors := by
  obtain ⟨hi0, _, hv0, hd0, _⟩ := h
  unfold calculateFatigueIncrease
  refine le_jsMin ?_ (by norm_num)
  have hbase := baseRate_pos factors.muscleGroup
  have hdiff := DIFFICULTY_MULTIPLIERS_pos factors.exerciseDifficulty
  have hvol : 0 ≤ jsMin (factors.exerciseVolume / 1000) 2.0 :=
    le_jsMin (by positivity) (by norm_num)
  have hint : 0 ≤ factors.exerciseIntensity * 1.5 := by positivity
  have hdur : 0 ≤ jsMin (factors.exerciseDuration / 60) 1.5 :=
    le_jsMin (by positivity) (by norm_num)
  have hrest : 0 ≤ jsMax (1.0 - factors.restTime / 300) 0.5 :=
    le_trans (by norm_num) (le_jsMax_right _ _)
  have h1 : 0 ≤ lookupD MUSCLE_FATIGUE_RATES factors.muscleGroup 10 *
      DIFFICULTY_MULTIPLIERS factors.exerciseDifficulty := by positivity
  exact mul_nonneg (mul_nonneg (mul_nonneg (mul_nonneg h1 hvol) hint) hdur) hrest

/-- C6: a fresh engine records a Chest set with intensity 0.8, volume 1600,
duration 60 s, rest 120 s, intermediate difficulty; the stored `fatigueLevel`
of Chest becomes exactly 17.28, and with no further sets a query 5 minutes
(300 000 ms) later returns 17.28 − 5 × 2.5 = 4.78. -/
theorem chest_scenario_exact :
    storedLevel (updateFatigue (FatigueCalculator.init 0)
      { exerciseIntensity := 0.8, exerciseVolume := 1600, exerciseDuration := 60,
        restTime := 120, muscleGroup := "Chest",
        exerciseDifficulty := .intermediate } 0) "Chest" = 17.28 ∧
    getFatigueLevel (updateFatigue (FatigueCalculator.init 0)
      { exerciseIntensity := 0.8, exerciseVolume := 1600, exerciseDuration := 60,
        restTime := 120, muscleGroup := "Chest",
        exerciseDifficulty := .intermediate } 0) "Chest" 300000 = 4.78 := by
  constructor <;>
    norm_num [storedLevel, getFatigueLevel, updateFatigue, FatigueCalculator.init,
      mapGet, mapSet, calculateFatigueIncrease, lookupD, MUSCLE_FATIGUE_RATES,
      MUSCLE_RECOVERY_RATES, DIFFICULTY_MULTIPLIERS, jsMin, jsMax]

/-- C2: the code does NOT clamp negative inputs.  A set with
`exerciseVolume = -1000` yields a negative per-set increment (−22.5), which
lowers the stored `fatigueLevel` below its post-decay value (17.28 down to
−5.22, even below 0, contradicting the `// 0-100` doc comment on
`fatigueLevel`) and lowers `totalVolume` (1600 down to 600). -/
theorem negative_volume_propagates :
    calculateFatigueIncrease
      { exerciseIntensity := 1, exerciseVolume := -1000, exerciseDuration := 60,
        restTime := 0, muscleGroup := "Chest",
        exerciseDifficulty := .intermediate } = -22.5 ∧
    storedLevel (updateFatigue (updateFatigue (FatigueCalculator.init 0)
      { exerciseIntensity := 0.8, exerciseVolume := 1600, exerciseDuration := 60,
        restTime := 120, muscleGroup := "Chest",
        exerciseDifficulty := .intermediate } 0)
      { exerciseIntensity := 1, exerciseVolume := -1000, exerciseDuration := 60,
        restTime := 0, muscleGroup := "Chest",
        exerciseDifficulty := .intermediate } 0) "Chest" = -5.22 ∧
    storedVolume (updateFatigue (updateFatigue (FatigueCalculator.init 0)
      { exerciseIntensity := 0.8, exerciseVolume := 1600, exerciseDuration := 60,
        restTime := 120, muscleGroup := "Chest",
        exerciseDifficulty := .intermediate } 0)
      { exerciseIntensity := 1, exerciseVolume := -1000, exerciseDuration := 60,
        restTime := 0, muscleGroup := "Chest",
        exerciseDifficulty := .intermediate } 0) "Chest" = 600 := by
  refine ⟨?_, ?_, ?_⟩ <;>
    norm_num [storedLevel, storedVolume, getFatigueLevel, updateFatigue,
      FatigueCalculator.init, mapGet, mapSet, calculateFatigueIncrease, lookupD,
      MUSCLE_FATIGUE_RATES, MUSCLE_RECOVERY_RATES, DIFFICULTY_MULTIPLIERS,
      jsMin, jsMax]

/-- C3: the query `getCurrentLevel` is read-only and idempotent: a call leaves the
instance state exactly as it was, and a second call at the same `now` with
no intervening `recordSet` returns the same value. -/
theorem getFatigueLevel_readonly (s : FatigueCalculator) (muscleGroup : String)
    (now : ℚ) :
    (getFatigueLevelCall s muscleGroup now).2 = s ∧
    (getFatigueLevelCall ((getFatigueLevelCall s muscleGroup now).2)
        muscleGroup now).1 =
      (getFatigueLevelCall s muscleGroup now).1 := ⟨rfl, rfl⟩

theorem mapGet_some_key {m : List MuscleFatigue} {g : String} {f : MuscleFatigue}
    (h : mapGet m g = some f) : f.muscleGroup = g := by
  unfold mapGet at h
  simpa using List.find?_some h

theorem mem_of_mapGet {m : List MuscleFatigue} {g : String} {f : MuscleFatigue}
    (h : mapGet m g = some f) : f ∈ m := by
  unfold mapGet at h
  exact List.mem_of_find?_eq_some h

theorem mapGet_mapSet_self {m : List MuscleFatigue} {g : String}
    {v : MuscleFatigue} (hv : v.muscleGroup = g) :
    mapGet (mapSet m g v) g = some v := by
  induction m with
  | nil => simp [mapGet, mapSet, List.find?, hv]
  | cons e es ih =>
    by_cases he : e.muscleGroup = g
    · simp [mapGet, mapSet, List.find?, he, hv]
    · simp only [mapSet, beq_iff_eq, he, if_false]
      unfold mapGet
      rw [List.find?_cons_of_neg _ (by simpa using he)]
      exact ih

theorem mapGet_mapSet_ne {m : List MuscleFatigue} {g g' : String}
    {v : MuscleFatigue} (hv : v.muscleGroup = g) (h : g' ≠ g) :
    mapGet (mapSet m g v) g' = mapGet m g' := by
  induction m with
  | nil =>
    show mapGet [v] g' = mapGet [] g'
    unfold mapGet
    rw [List.find?_cons_of_neg _ (by simp [hv, Ne.symm h])]
  | cons e es ih =>
    by_cases he : e.muscleGroup = g
    · simp only [mapSet, beq_iff_eq, he, if_true]
      unfold mapGet
      rw [List.find?_cons_of_neg _ (by simp [hv, Ne.symm h]),
        List.find?_cons_of_neg _ (by simp [he, Ne.symm h])]
    · simp only [mapSet, beq_iff_eq, he, if_false]
      unfold mapGet
      by_cases he' : e.muscleGroup = g'
      · rw [List.find?_cons_of_pos _ (by simpa using he'),
          List.find?_cons_of_pos _ (by simpa using he')]
      · rw [List.find?_cons_of_neg _ (by simpa using he'),
          List.find?_cons_of_neg _ (by simpa using he')]
        exact ih

/-- C10: a `recordSet` call for one muscle group leaves every other muscle group's
stored entry (all fields) untouched and does not change the session start
timestamp. -/
theorem updateFatigue_frame (s : FatigueCalculator) (factors : FatigueFactors)
    (now : ℚ) (g' : String) (h : g' ≠ factors.muscleGroup) :
    mapGet (updateFatigue s factors now).muscleFatigue g' =
      mapGet s.muscleFatigue g' ∧
    (updateFatigue s factors now).workoutStartTime = s.workoutStartTime := by
  refine ⟨?_, rfl⟩
  simp only [updateFatigue]
  refine mapGet_mapSet_ne ?_ h
  cases hf : mapGet s.muscleFatigue factors.muscleGroup with
  | none => rfl
  | some f =>
    have hk := mapGet_some_key hf
    exact hk

/-- C10 witness: recording a Chest set leaves the (empty) Back entry and the
session start time unchanged. -/
theorem updateFatigue_frame_witness :
    mapGet (updateFatigue (FatigueCalculator.init 0)
      { exerciseIntensity := 0.8, exerciseVolume := 1600, exerciseDuration := 60,
        restTime := 120, muscleGroup := "Chest",
        exerciseDifficulty := .intermediate } 0).muscleFatigue "Back" =
      mapGet (FatigueCalculator.init 0).muscleFatigue "Back" ∧
    (updateFatigue (FatigueCalculator.init 0)
      { exerciseIntensity := 0.8, exerciseVolume := 1600, exerciseDuration := 60,
        restTime := 120, muscleGroup := "Chest",
        exerciseDifficulty := .intermediate } 0).workoutStartTime =
      (FatigueCalculator.init 0).workoutStartTime :=
  updateFatigue_frame _ _ _ _ (by simp)

/-- C5: a single `recordSet` call raises the stored `fatigueLevel` of its
muscle group by at most 50, for every input: the per-set increment is capped
at 50 before being added.  (The hypothesis says the existing entry, if any,
is in a reachable shape: non-negative level, not last touched in the future,
non-negative recovery rate.) -/
theorem updateFatigue_raises_at_most_50 (s : FatigueCalculator)
    (factors : FatigueFactors) (now : ℚ)
    (h : ∀ f, mapGet s.muscleFatigue factors.muscleGroup = some f →
      0 ≤ f.fatigueLevel ∧ f.lastExerciseTime ≤ now ∧ 0 ≤ f.recoveryRate) :
    calculateFatigueIncrease factors ≤ 50 ∧
    storedLevel (updateFatigue s factors now) factors.muscleGroup ≤
      storedLevel s factors.muscleGroup + 50 := by
  refine ⟨calculateFatigueIncrease_le_50 _, ?_⟩
  have hcap := calculateFatigueIncrease_le_50 factors
  cases hf : mapGet s.muscleFatigue factors.muscleGroup with
  | none =>
    simp only [storedLevel, updateFatigue, hf]
    have hnew := mapGet_mapSet_self (m := s.muscleFatigue)
      (g := factors.muscleGroup)
      (v := { muscleGroup := factors.muscleGroup,
              fatigueLevel := jsMin 100
                (jsMax 0 (0 - (now - now) / 1000 / 60 *
                  lookupD MUSCLE_RECOVERY_RATES factors.muscleGroup 2.0) +
                  calculateFatigueIncrease factors),
              lastExerciseTime := now, totalVolume := 0 + factors.exerciseVolume,
              exerciseCount := 0 + 1,
              recoveryRate := lookupD MUSCLE_RECOVERY_RATES factors.muscleGroup 2.0 })
      rfl
    rw [hnew]
    dsimp only
    have h1 : jsMax 0 ((0 : ℚ) - (now - now) / 1000 / 60 *
        lookupD MUSCLE_RECOVERY_RATES factors.muscleGroup 2.0) = 0 := by
      norm_num [jsMax]
    calc jsMin 100 (jsMax 0 ((0 : ℚ) - (now - now) / 1000 / 60 *
          lookupD MUSCLE_RECOVERY_RATES factors.muscleGroup 2.0) +
          calculateFatigueIncrease factors)
        ≤ jsMax 0 ((0 : ℚ) - (now - now) / 1000 / 60 *
          lookupD MUSCLE_RECOVERY_RATES factors.muscleGroup 2.0) +
          calculateFatigueIncrease factors := jsMin_le_right _ _
      _ ≤ 0 + 50 := by rw [h1]; linarith
  | some f =>
    obtain ⟨hf0, hl, hr⟩ := h f hf
    simp only [storedLevel, updateFatigue, hf]
    have hnew := mapGet_mapSet_self (m := s.muscleFatigue)
      (g := factors.muscleGroup)
      (v := { muscleGroup := f.muscleGroup,
              fatigueLevel := jsMin 100
                (jsMax 0 (f.fatigueLevel - (now - f.lastExerciseTime) / 1000 / 60 *
                  f.recoveryRate) + calculateFatigueIncrease factors),
              lastExerciseTime := now,
              totalVolume := f.totalVolume + factors.exerciseVolume,
              exerciseCount := f.exerciseCount + 1, recoveryRate := f.recoveryRate })
      (show f.muscleGroup = factors.muscleGroup from mapGet_some_key hf)
    rw [hnew]
    dsimp only
    have hrec : 0 ≤ (now - f.lastExerciseTime) / 1000 / 60 * f.recoveryRate := by
      have hnl : 0 ≤ now - f.lastExerciseTime := by linarith
      positivity
    have h1 : jsMax 0 (f.fatigueLevel -
        (now - f.lastExerciseTime) / 1000 / 60 * f.recoveryRate) ≤
        f.fatigueLevel := jsMax_le hf0 (by linarith)
    calc jsMin 100 (jsMax 0 (f.fatigueLevel -
          (now - f.lastExerciseTime) / 1000 / 60 * f.recoveryRate) +
          calculateFatigueIncrease factors)
        ≤ jsMax 0 (f.fatigueLevel -
          (now - f.lastExerciseTime) / 1000 / 60 * f.recoveryRate) +
          calculateFatigueIncrease factors := jsMin_le_right _ _
      _ ≤ f.fatigueLevel + 50 := by linarith

/-- C5 witness: the claim's extreme inputs (intensity 1, volume 100000,
duration 600 s, rest 0) on a fresh engine raise Chest by at most 50. -/
theorem updateFatigue_raises_at_most_50_witness :
    calculateFatigueIncrease
      { exerciseIntensity := 1, exerciseVolume := 100000, exerciseDuration := 600,
        restTime := 0, muscleGroup := "Chest",
        exerciseDifficulty := .intermediate } ≤ 50 ∧
    storedLevel (updateFatigue (FatigueCalculator.init 0)
      { exerciseIntensity := 1, exerciseVolume := 100000, exerciseDuration := 600,
        restTime := 0, muscleGroup := "Chest",
        exerciseDifficulty := .intermediate } 0) "Chest" ≤
      storedLevel (FatigueCalculator.init 0) "Chest" + 50 :=
  updateFatigue_raises_at_most_50 (FatigueCalculator.init 0) _ 0
    (by intro f hf; simp [mapGet, FatigueCalculator.init, List.find?] at hf)

/-- C4: for a recorded muscle group, with no intervening `recordSet`,
`getCurrentLevel` is non-increasing as "now" advances, and is exactly 0 as
soon as the elapsed recovery (elapsed minutes × recovery rate) is at least
the remaining stored fatigue. -/
theorem getFatigueLevel_decay (s : FatigueCalculator) (g : String)
    (fat : MuscleFatigue) (hget : mapGet s.muscleFatigue g = some fat)
    (now₁ now₂ : ℚ) (h12 : now₁ ≤ now₂) (hr : 0 ≤ fat.recoveryRate) :
    getFatigueLevel s g now₂ ≤ getFatigueLevel s g now₁ ∧
    (fat.fatigueLevel ≤
        (now₂ - fat.lastExerciseTime) / 1000 / 60 * fat.recoveryRate →
      getFatigueLevel s g now₂ = 0) := by
  simp only [getFatigueLevel, hget]
  constructor
  · apply jsMax_mono_right
    have : (now₁ - fat.lastExerciseTime) / 1000 / 60 * fat.recoveryRate ≤
        (now₂ - fat.lastExerciseTime) / 1000 / 60 * fat.recoveryRate := by
      apply mul_le_mul_of_nonneg_right _ hr
      linarith
    linarith
  · intro hle
    apply jsMax_eq_of_le
    linarith

/-- C4 witness: the Chest state at 17.28 decays monotonically, and 10
minutes of elapsed recovery (10 × 2.5 = 25 ≥ 17.28) bring the query to
exactly 0. -/
theorem getFatigueLevel_decay_witness :
    getFatigueLevel (updateFatigue (FatigueCalculator.init 0)
      { exerciseIntensity := 0.8, exerciseVolume := 1600, exerciseDuration := 60,
        restTime := 120, muscleGroup := "Chest",
        exerciseDifficulty := .intermediate } 0) "Chest" 600000 ≤
      getFatigueLevel (updateFatigue (FatigueCalculator.init 0)
      { exerciseIntensity := 0.8, exerciseVolume := 1600, exerciseDuration := 60,
        restTime := 120, muscleGroup := "Chest",
        exerciseDifficulty := .intermediate } 0) "Chest" 0 ∧
    ((⟨"Chest", 17.28, 0, 1600, 1, 2.5⟩ : MuscleFatigue).fatigueLevel ≤
        (600000 - (⟨"Chest", 17.28, 0, 1600, 1, 2.5⟩ : MuscleFatigue).lastExerciseTime) /
          1000 / 60 * (⟨"Chest", 17.28, 0, 1600, 1, 2.5⟩ : MuscleFatigue).recoveryRate →
      getFatigueLevel (updateFatigue (FatigueCalculator.init 0)
        { exerciseIntensity := 0.8, exerciseVolume := 1600, exerciseDuration := 60,
          restTime := 120, muscleGroup := "Chest",
          exerciseDifficulty := .intermediate } 0) "Chest" 600000 = 0) :=
  getFatigueLevel_decay _ "Chest" ⟨"Chest", 17.28, 0, 1600, 1, 2.5⟩
    (by norm_num [mapGet, updateFatigue, FatigueCalculator.init, mapSet,
      calculateFatigueIncrease, lookupD, MUSCLE_FATIGUE_RATES,
      MUSCLE_RECOVERY_RATES, DIFFICULTY_MULTIPLIERS, jsMin, jsMax, List.find?])
    0 600000 (by norm_num) (by norm_num)

theorem mem_mapSet {m : List MuscleFatigue} {g : String} {v x : MuscleFatigue}
    (hx : x ∈ mapSet m g v) : x ∈ m ∨ x = v := by
  induction m with
  | nil =>
    simp only [mapSet, List.mem_singleton] at hx
    exact Or.inr hx
  | cons e es ih =>
    by_cases he : e.muscleGroup = g
    · simp only [mapSet, beq_iff_eq, he, if_true] at hx
      rcases List.mem_cons.mp hx with h1 | h2
      · exact Or.inr h1
      · exact Or.inl (List.mem_cons_of_mem _ h2)
    · simp only [mapSet, beq_iff_eq, he, if_false] at hx
      rcases List.mem_cons.mp hx with h1 | h2
      · exact Or.inl (by simp [h1])
      · rcases ih h2 with h3 | h4
        · exact Or.inl (List.mem_cons_of_mem _ h3)
        · exact Or.inr h4

/-- One `recordSet` step preserves the clamping invariant, advancing its
time stamp to `now`. -/
theorem updateFatigue_inv {s : FatigueCalculator} {t now : ℚ}
    {factors : FatigueFactors} (hs : Inv s t) (ht : t ≤ now)
    (hv : ValidFactors factors) : Inv (updateFatigue s factors now) now := by
  have hinc0 := calculateFatigueIncrease_nonneg hv
  have hinc50 := calculateFatigueIncrease_le_50 factors
  cases hf : mapGet s.muscleFatigue factors.muscleGroup with
  | none =>
    intro x hx
    simp only [updateFatigue, hf] at hx
    rcases mem_mapSet hx with hmem | rfl
    · obtain ⟨h1, h2, h3, h4⟩ := hs x hmem
      exact ⟨h1, h2, le_trans h3 ht, h4⟩
    · refine ⟨?_, ?_, le_refl now, le_of_lt (recoveryRate_pos _)⟩
      · exact le_jsMin (by norm_num)
          (by have := jsMax_nonneg ((0 : ℚ) - (now - now) / 1000 / 60 *
            lookupD MUSCLE_RECOVERY_RATES factors.muscleGroup 2.0); linarith)
      · exact jsMin_le_left _ _
  | some f =>
    intro x hx
    simp only [updateFatigue, hf] at hx
    rcases mem_mapSet hx with hmem | rfl
    · obtain ⟨h1, h2, h3, h4⟩ := hs x hmem
      exact ⟨h1, h2, le_trans h3 ht, h4⟩
    · obtain ⟨h1, h2, h3, h4⟩ := hs f (mem_of_mapGet hf)
      refine ⟨?_, jsMin_le_left _ _, le_refl now, h4⟩
      exact le_jsMin (by norm_num)
        (by have := jsMax_nonneg (f.fatigueLevel -
          (now - f.lastExerciseTime) / 1000 / 60 * f.recoveryRate); linarith)

/-- Running a chronological sequence of valid sets from an invariant state
keeps the invariant, at the last clock reading. -/
theorem runSets_inv (events : List (FatigueFactors × ℚ)) :
    ∀ (s : FatigueCalculator) (t : ℚ), Inv s t →
    (∀ e ∈ events, ValidFactors e.1) → Chrono t events →
    Inv (runSets s events) (lastTime t events) := by
  induction events with
  | nil => intro s t hs _ _; exact hs
  | cons e es ih =>
    intro s t hs hval hch
    obtain ⟨hte, hch'⟩ := hch
    exact ih (updateFatigue s e.1 e.2) e.2
      (updateFatigue_inv hs hte (hval e (List.mem_cons_self e es)))
      (fun x hx => hval x (List.mem_cons_of_mem e hx)) hch'

/-- On an invariant state, a query at any `now` not before the invariant's
time stamp returns a value in [0, 100]. -/
theorem getFatigueLevel_bounds {s : FatigueCalculator} {t now : ℚ}
    (hs : Inv s t) (ht : t ≤ now) (g : String) :
    0 ≤ getFatigueLevel s g now ∧ getFatigueLevel s g now ≤ 100 := by
  unfold getFatigueLevel
  cases hf : mapGet s.muscleFatigue g with
  | none => norm_num
  | some f =>
    obtain ⟨h1, h2, h3, h4⟩ := hs f (mem_of_mapGet hf)
    have hrec : 0 ≤ (now - f.lastExerciseTime) / 1000 / 60 * f.recoveryRate := by
      have hnl : 0 ≤ now - f.lastExerciseTime := by linarith
      positivity
    exact ⟨jsMax_nonneg _, jsMax_le (by norm_num) (by linarith)⟩

/-- On an invariant state, every entry of a `getAllLevels` snapshot carries
a decay-adjusted level in [0, 100]. -/
theorem getAllFatigueLevels_bounds {s : FatigueCalculator} {t now : ℚ}
    (hs : Inv s t) (ht : t ≤ now) :
    ∀ x ∈ getAllFatigueLevels s now,
      0 ≤ x.fatigueLevel ∧ x.fatigueLevel ≤ 100 := by
  intro x hx
  unfold getAllFatigueLevels at hx
  rcases List.mem_map.mp hx with ⟨f, hf, rfl⟩
  obtain ⟨h1, h2, h3, h4⟩ := hs f hf
  have hrec : 0 ≤ (now - f.lastExerciseTime) / 1000 / 60 * f.recoveryRate := by
    have hnl : 0 ≤ now - f.lastExerciseTime := by linarith
    positivity
  exact ⟨jsMax_nonneg _, jsMax_le (by norm_num) (by linarith)⟩

/-- C1: for every chronological sequence of `recordSet` calls with inputs in
the spec's `SetInput` domain, every muscle group's `fatigueLevel` lies in
[0, 100] at every observable point: in the stored state after the sequence
(hence after every prefix, i.e. after every mutation), and in every
query-time recomputation (`getCurrentLevel`, `getAllLevels`) at any `now`
not before the last mutation. -/
theorem fatigue_always_clamped (events : List (FatigueFactors × ℚ))
    (t now : ℚ) (hval : ∀ e ∈ events, ValidFactors e.1)
    (hch : Chrono t events) (hnow : lastTime t events ≤ now) :
    (∀ f ∈ (runSets (FatigueCalculator.init t) events).muscleFatigue,
      0 ≤ f.fatigueLevel ∧ f.fatigueLevel ≤ 100) ∧
    (∀ g, 0 ≤ getFatigueLevel (runSets (FatigueCalculator.init t) events) g now ∧
      getFatigueLevel (runSets (FatigueCalculator.init t) events) g now ≤ 100) ∧
    (∀ x ∈ getAllFatigueLevels (runSets (FatigueCalculator.init t) events) now,
      0 ≤ x.fatigueLevel ∧ x.fatigueLevel ≤ 100) := by
  have hinv : Inv (runSets (FatigueCalculator.init t) events)
      (lastTime t events) :=
    runSets_inv events _ t
      (fun f hf => absurd hf (List.not_mem_nil f)) hval hch
  refine ⟨fun f hf => ?_, fun g => getFatigueLevel_bounds hinv hnow g,
    getAllFatigueLevels_bounds hinv hnow⟩
  obtain ⟨h1, h2, _, _⟩ := hinv f hf
  exact ⟨h1, h2⟩

/-- C1 witness: one valid Chest set at time 1000 keeps Chest's level inside
[0, 100] when queried at the same time. -/
theorem fatigue_always_clamped_witness :
    0 ≤ getFatigueLevel (runSets (FatigueCalculator.init 0)
      [({ exerciseIntensity := 0.8, exerciseVolume := 1600,
          exerciseDuration := 60, restTime := 120, muscleGroup := "Chest",
          exerciseDifficulty := .intermediate }, 1000)]) "Chest" 1000 ∧
    getFatigueLevel (runSets (FatigueCalculator.init 0)
      [({ exerciseIntensity := 0.8, exerciseVolume := 1600,
          exerciseDuration := 60, restTime := 120, muscleGroup := "Chest",
          exerciseDifficulty := .intermediate }, 1000)]) "Chest" 1000 ≤ 100 :=
  (fatigue_always_clamped _ 0 1000
    (by intro e he; simp only [List.mem_singleton] at he; subst he
        norm_num [ValidFactors])
    (by norm_num [Chrono])
    (by norm_num [lastTime])).2.1 "Chest"

/-- The `forEach` accumulation of `getExerciseFatigue` computes the sum and
count of the levels of the target muscles different from the primary one. -/
theorem secondary_foldl (s : FatigueCalculator) (g : String) (now : ℚ)
    (ts : List String) :
    ∀ (a : ℚ) (n : ℕ),
      ts.foldl (fun acc muscle =>
        if muscle != g then
          (acc.1 + getFatigueLevel s muscle now, acc.2 + 1)
        else acc) (a, n) =
      (a + ((ts.filter (fun m => m != g)).map
        (fun m => getFatigueLevel s m now)).sum,
       n + (ts.filter (fun m => m != g)).length) := by
  induction ts with
  | nil => intro a n; simp
  | cons m ms ih =>
    intro a n
    by_cases hm : m = g
    · simp only [List.foldl_cons, List.filter_cons, hm, bne_self_eq_false,
        Bool.false_eq_true, if_false]
      exact ih a n
    · have hb : (m != g) = true := by simp [hm]
      simp only [List.foldl_cons, List.filter_cons, hb, if_true,
        List.map_cons, List.sum_cons, List.length_cons]
      rw [ih]
      refine Prod.ext ?_ ?_ <;> simp <;> ring_nf

/-- C9: the query `getExerciseFatigue` returns the current level of the primary
muscle, the arithmetic mean of the current levels of the target muscles
other than the primary (0 when `targetMuscles` is absent or empty after the
exclusion), and the 0.7/0.3 weighted combination. -/
theorem getExerciseFatigue_spec (s : FatigueCalculator) (exercise : ExerciseRef)
    (now : ℚ) :
    (getExerciseFatigue s exercise now).primaryFatigue =
      getFatigueLevel s exercise.muscleGroup now ∧
    (getExerciseFatigue s exercise now).secondaryFatigue =
      (if ((exercise.targetMuscles.getD []).filter
            (fun m => m != exercise.muscleGroup)) = [] then 0
       else (((exercise.targetMuscles.getD []).filter
            (fun m => m != exercise.muscleGroup)).map
            (fun m => getFatigueLevel s m now)).sum /
          ((((exercise.targetMuscles.getD []).filter
            (fun m => m != exercise.muscleGroup)).length : ℚ))) ∧
    (getExerciseFatigue s exercise now).overallFatigue =
      0.7 * (getExerciseFatigue s exercise now).primaryFatigue +
      0.3 * (getExerciseFatigue s exercise now).secondaryFatigue := by
  unfold getExerciseFatigue
  cases ht : exercise.targetMuscles with
  | none =>
    dsimp only
    refine ⟨rfl, by norm_num, by ring⟩
  | some ts =>
    dsimp only
    rw [secondary_foldl]
    dsimp only
    refine ⟨rfl, ?_, by ring⟩
    simp only [Option.getD_some, zero_add]
    by_cases hfe : ts.filter (fun m => m != exercise.muscleGroup) = []
    · simp [hfe]
    · have hlen : 0 < (ts.filter (fun m => m != exercise.muscleGroup)).length :=
        List.length_pos.mpr hfe
      rw [if_pos hlen, if_neg hfe]

/-- C7: the query `getRecommendations` lists in `restNeeded` exactly the formatted
string of every snapshot entry whose decay-adjusted level exceeds 70, and
sets `intensityAdjustment` to "reduce" when some muscle is above 70, else
"moderate" when some muscle is in (40, 70], else "maintain". -/
theorem getFatigueRecommendations_spec (s : FatigueCalculator) (now : ℚ) :
    (getFatigueRecommendations s now).restNeeded =
      ((getAllFatigueLevels s now).filter
        (fun f => decide (70 < f.fatigueLevel))).map
        (fun f => f.muscleGroup ++ " (" ++ toString (jsRound f.fatigueLevel) ++
          "% fatigue)") ∧
    (getFatigueRecommendations s now).intensityAdjustment =
      (if ∃ f ∈ getAllFatigueLevels s now, 70 < f.fatigueLevel then "reduce"
       else if ∃ f ∈ getAllFatigueLevels s now,
          40 < f.fatigueLevel ∧ f.fatigueLevel ≤ 70 then "moderate"
       else "maintain") := by
  refine ⟨rfl, ?_⟩
  unfold getFatigueRecommendations
  dsimp only
  have h1 : (0 < ((getAllFatigueLevels s now).filter
      (fun f => decide (70 < f.fatigueLevel))).length) ↔
      (∃ f ∈ getAllFatigueLevels s now, 70 < f.fatigueLevel) := by
    rw [List.length_pos, Ne, List.filter_eq_nil_iff]
    push_neg
    simp
  have h2 : (0 < ((getAllFatigueLevels s now).filter
      (fun f => decide (40 < f.fatigueLevel) && decide (f.fatigueLevel ≤ 70))).length) ↔
      (∃ f ∈ getAllFatigueLevels s now,
        40 < f.fatigueLevel ∧ f.fatigueLevel ≤ 70) := by
    rw [List.length_pos, Ne, List.filter_eq_nil_iff]
    push_neg
    simp
  rw [if_congr h2 rfl rfl, if_congr h1 rfl rfl]

theorem firstMin_level_le_self (l : List MuscleFatigue) :
    ∀ a : MuscleFatigue, (firstMin a l).fatigueLevel ≤ a.fatigueLevel := by
  induction l with
  | nil => intro a; exact le_refl _
  | cons b bs ih =>
    intro a
    unfold firstMin
    split
    · exact ih a
    · have h1 := ih b
      linarith [h1]

theorem firstMin_le (l : List MuscleFatigue) :
    ∀ a : MuscleFatigue, ∀ b ∈ a :: l,
      (firstMin a l).fatigueLevel ≤ b.fatigueLevel := by
  induction l with
  | nil =>
    intro a b hb
    rcases List.mem_singleton.mp hb with rfl
    exact le_refl _
  | cons c cs ih =>
    intro a b hb
    unfold firstMin
    rcases List.mem_cons.mp hb with rfl | hb'
    · split
      · exact firstMin_level_le_self cs b
      · have h1 := firstMin_level_le_self cs c
        linarith
    · rcases List.mem_cons.mp hb' with rfl | hb''
      · split
        · have h1 := firstMin_level_le_self cs a
          linarith
        · exact firstMin_level_le_self cs b
      · split
        · exact ih a b (List.mem_cons_of_mem a hb'')
        · exact ih c b (List.mem_cons_of_mem c hb'')

theorem firstMin_if (l : List MuscleFatigue) :
    ∀ x y : MuscleFatigue, x.fatigueLevel ≤ y.fatigueLevel →
      firstMin x l =
        if x.fatigueLevel ≤ (firstMin y l).fatigueLevel then x
        else firstMin y l := by
  induction l with
  | nil =>
    intro x y hxy
    simp only [firstMin]
    rw [if_pos hxy]
  | cons z zs ih =>
    intro x y hxy
    by_cases hxz : x.fatigueLevel ≤ z.fatigueLevel
    · by_cases hyz : y.fatigueLevel ≤ z.fatigueLevel
      · simp only [firstMin, if_pos hxz, if_pos hyz]
        exact ih x y hxy
      · simp only [firstMin, if_pos hxz, if_neg hyz]
        exact ih x z hxz
    · have hyz : ¬ y.fatigueLevel ≤ z.fatigueLevel := by linarith
      simp only [firstMin, if_neg hxz, if_neg hyz]
      rw [if_neg]
      have h1 := firstMin_level_le_self zs z
      linarith

theorem head_sortByFatigue (l : List MuscleFatigue) :
    ∀ x : MuscleFatigue,
      (sortByFatigue (x :: l)).head? = some (firstMin x l) := by
  induction l with
  | nil => intro x; rfl
  | cons y ys ih =>
    intro x
    have hih := ih y
    show (insertByLevel x (sortByFatigue (y :: ys))).head? = _
    cases hs : sortByFatigue (y :: ys) with
    | nil => rw [hs] at hih; simp at hih
    | cons m t =>
      rw [hs] at hih
      simp only [List.head?_cons, Option.some.injEq] at hih
      subst hih
      unfold insertByLevel
      by_cases hxm : x.fatigueLevel ≤ (firstMin y ys).fatigueLevel
      · rw [if_pos hxm]
        simp only [List.head?_cons, Option.some.injEq]
        show x = firstMin x (y :: ys)
        by_cases hxy : x.fatigueLevel ≤ y.fatigueLevel
        · rw [show firstMin x (y :: ys) =
            if x.fatigueLevel ≤ y.fatigueLevel then firstMin x ys
            else firstMin y ys from rfl, if_pos hxy,
            firstMin_if ys x y hxy, if_pos hxm]
        · have h1 := firstMin_level_le_self ys y
          linarith
      · rw [if_neg hxm]
        simp only [List.head?_cons, Option.some.injEq]
        show firstMin y ys = firstMin x (y :: ys)
        by_cases hxy : x.fatigueLevel ≤ y.fatigueLevel
        · rw [show firstMin x (y :: ys) =
            if x.fatigueLevel ≤ y.fatigueLevel then firstMin x ys
            else firstMin y ys from rfl, if_pos hxy,
            firstMin_if ys x y hxy, if_neg hxm]
        · rw [show firstMin x (y :: ys) =
            if x.fatigueLevel ≤ y.fatigueLevel then firstMin x ys
            else firstMin y ys from rfl, if_neg hxy]

theorem firstMin_first (l : List MuscleFatigue) :
    ∀ a : MuscleFatigue, ∃ pre post,
      a :: l = pre ++ firstMin a l :: post ∧
      ∀ b ∈ pre, (firstMin a l).fatigueLevel < b.fatigueLevel := by
  induction l with
  | nil =>
    intro a
    exact ⟨[], [], rfl, by simp⟩
  | cons b bs ih =>
    intro a
    by_cases h : a.fatigueLevel ≤ b.fatigueLevel
    · obtain ⟨pre, post, hdec, hpre⟩ := ih a
      rw [show firstMin a (b :: bs) =
        if a.fatigueLevel ≤ b.fatigueLevel then firstMin a bs
        else firstMin b bs from rfl, if_pos h]
      cases pre with
      | nil =>
        simp only [List.nil_append] at hdec
        have ha : firstMin a bs = a := (List.cons.injEq _ _ _ _).mp hdec |>.1.symm
        refine ⟨[], b :: bs, ?_, by simp⟩
        rw [ha]
        simp
      | cons p ps =>
        simp only [List.cons_append] at hdec
        obtain ⟨hap, hbs⟩ := (List.cons.injEq _ _ _ _).mp hdec
        refine ⟨a :: b :: ps, post, ?_, ?_⟩
        · simp only [List.cons_append]
          rw [← hbs]
        · intro c hc
          rcases List.mem_cons.mp hc with rfl | hc'
          · have := hpre p (List.mem_cons_self p ps)
            rw [← hap] at this
            exact this
          · rcases List.mem_cons.mp hc' with rfl | hc''
            · have := hpre p (List.mem_cons_self p ps)
              rw [← hap] at this
              linarith
            · exact hpre c (List.mem_cons_of_mem p hc'')
    · obtain ⟨pre, post, hdec, hpre⟩ := ih b
      rw [show firstMin a (b :: bs) =
        if a.fatigueLevel ≤ b.fatigueLevel then firstMin a bs
        else firstMin b bs from rfl, if_neg h]
      refine ⟨a :: pre, post, ?_, ?_⟩
      · simp only [List.cons_append]
        rw [← hdec]
      · intro c hc
        rcases List.mem_cons.mp hc with rfl | hc'
        · have h1 := firstMin_level_le_self bs b
          linarith
        · exact hpre c hc'

/-- C8: the query `getRecommendations` suggests, among the snapshot entries with level
below 30, the one with the lowest level — and on ties the one encountered
first in the `getAllLevels` iteration order (everything before it in the
filtered snapshot is strictly higher) — formatted with its rounded
percentage; when no entry is below 30 it returns the fixed fallback
string. -/
theorem getNextExerciseSuggestion_spec (s : FatigueCalculator) (now : ℚ) :
    ((getAllFatigueLevels s now).filter
        (fun f => decide (f.fatigueLevel < 30)) = [] →
      (getFatigueRecommendations s now).nextExerciseSuggestion =
        "Consider a different muscle group or take a longer rest") ∧
    ∀ x t, (getAllFatigueLevels s now).filter
        (fun f => decide (f.fatigueLevel < 30)) = x :: t →
      (getFatigueRecommendations s now).nextExerciseSuggestion =
        "Consider targeting " ++ (firstMin x t).muscleGroup ++ " (" ++
          toString (jsRound (firstMin x t).fatigueLevel) ++ "% fatigue)" ∧
      firstMin x t ∈ x :: t ∧
      (∀ b ∈ x :: t, (firstMin x t).fatigueLevel ≤ b.fatigueLevel) ∧
      ∃ pre post, x :: t = pre ++ firstMin x t :: post ∧
        ∀ b ∈ pre, (firstMin x t).fatigueLevel < b.fatigueLevel := by
  constructor
  · intro hempty
    show getNextExerciseSuggestion (getAllFatigueLevels s now) = _
    unfold getNextExerciseSuggestion
    simp [hempty]
  · intro x t hlow
    have hhead := head_sortByFatigue t x
    refine ⟨?_, ?_, firstMin_le t x, firstMin_first t x⟩
    · show getNextExerciseSuggestion (getAllFatigueLevels s now) = _
      unfold getNextExerciseSuggestion
      dsimp only
      rw [hlow, if_neg (by simp)]
      cases hs : sortByFatigue (x :: t) with
      | nil => rw [hs] at hhead; simp at hhead
      | cons m rest =>
        rw [hs] at hhead
        simp only [List.head?_cons, Option.some.injEq] at hhead
        rw [List.headD_cons, hhead]
    · obtain ⟨pre, post, hdec, _⟩ := firstMin_first t x
      rw [hdec]
      exact List.mem_append.mpr (Or.inr (List.mem_cons_self _ _))

/-- C8 witness: with only Chest recorded at 17.28, the suggestion names
Chest with its rounded percentage, and Chest is the (unique) minimum. -/
theorem getNextExerciseSuggestion_spec_witness :
    (getFatigueRecommendations (updateFatigue (FatigueCalculator.init 0)
        { exerciseIntensity := 0.8, exerciseVolume := 1600,
          exerciseDuration := 60, restTime := 120, muscleGroup := "Chest",
          exerciseDifficulty := .intermediate } 0) 0).nextExerciseSuggestion =
      "Consider targeting " ++
        (firstMin (⟨"Chest", 17.28, 0, 1600, 1, 2.5⟩ : MuscleFatigue) []).muscleGroup ++
        " (" ++ toString (jsRound
          (firstMin (⟨"Chest", 17.28, 0, 1600, 1, 2.5⟩ : MuscleFatigue) []).fatigueLevel) ++
        "% fatigue)" ∧
    firstMin (⟨"Chest", 17.28, 0, 1600, 1, 2.5⟩ : MuscleFatigue) [] ∈
      [(⟨"Chest", 17.28, 0, 1600, 1, 2.5⟩ : MuscleFatigue)] ∧
    (∀ b ∈ [(⟨"Chest", 17.28, 0, 1600, 1, 2.5⟩ : MuscleFatigue)],
      (firstMin (⟨"Chest", 17.28, 0, 1600, 1, 2.5⟩ : MuscleFatigue) []).fatigueLevel ≤
        b.fatigueLevel) ∧
    ∃ pre post, [(⟨"Chest", 17.28, 0, 1600, 1, 2.5⟩ : MuscleFatigue)] =
        pre ++ firstMin (⟨"Chest", 17.28, 0, 1600, 1, 2.5⟩ : MuscleFatigue) [] :: post ∧
      ∀ b ∈ pre,
        (firstMin (⟨"Chest", 17.28, 0, 1600, 1, 2.5⟩ : MuscleFatigue) []).fatigueLevel <
          b.fatigueLevel :=
  (getNextExerciseSuggestion_spec (updateFatigue (FatigueCalculator.init 0)
      { exerciseIntensity := 0.8, exerciseVolume := 1600,
        exerciseDuration := 60, restTime := 120, muscleGroup := "Chest",
        exerciseDifficulty := .intermediate } 0) 0).2
    ⟨"Chest", 17.28, 0, 1600, 1, 2.5⟩ []
    (by norm_num [getAllFatigueLevels, updateFatigue, FatigueCalculator.init,
      mapGet, mapSet, calculateFatigueIncrease, lookupD, MUSCLE_FATIGUE_RATES,
      MUSCLE_RECOVERY_RATES, DIFFICULTY_MULTIPLIERS, jsMin, jsMax,
      List.find?, List.filter])

end Fatigue
